import Mathlib

/-!
Shallow embedding of the storage engine (`src-tauri/src/db.rs`) and report
generator (`src-tauri/src/commands.rs`) of the todo-wbs application.

Modelling conventions:
* Each SQLite table is a Lean `List` of rows; `INSERT` appends to the list,
  `UPDATE ... WHERE id = ?` maps over the list touching matching rows, and
  `DELETE ... WHERE id = ?` filters the list.
* `Uuid::new_v4()` (a fresh globally-unique identifier) and
  `Local::now().format(..)` (the current timestamp) are impure inputs of the
  Rust code; they are modelled as explicit arguments of the create
  operations.  Where a claim depends on uniqueness of generated identifiers,
  the theorem carries a freshness hypothesis.
* The schema (`init_schema`) declares `ON DELETE CASCADE` on
  `tasks.project_id` and `tasks.parent_id` and `ON DELETE SET NULL` on
  `daily_todos.task_id`; the delete operations below implement exactly those
  declared referential actions.
* `rusqlite` errors that the code paths can produce at the modelled level are
  `QueryReturnedNoRows` (from `query_row` on an empty result); I/O failures
  are outside the model.
* SQL `ORDER BY` is modelled with the stable `List.mergeSort` on the ordering
  key; SQLite's BINARY collation on `TEXT` agrees with the code-point order
  on `String` used here.
-/

namespace TodoWbs

/-- Row of the `projects` table (struct `Project` in db.rs). -/
structure Project where
  id : String
  name : String
  description : Option String
  start_date : Option String
  end_date : Option String
  created_at : String
deriving DecidableEq, Repr

/-- Row of the `tasks` table (struct `Task` in db.rs). -/
structure Task where
  id : String
  project_id : String
  parent_id : Option String
  title : String
  description : Option String
  status : String
  priority : Int
  start_date : Option String
  end_date : Option String
  progress : Int
  order_index : Int
  created_at : String
deriving DecidableEq, Repr

/-- Row of the `daily_todos` table (struct `DailyTodo` in db.rs). -/
structure DailyTodo where
  id : String
  task_id : Option String
  title : String
  date : String
  completed : Bool
  memo : Option String
  created_at : String
deriving DecidableEq, Repr

/-- Join row returned by `get_todos_by_date` (struct `DailyTodoWithTask`). -/
structure DailyTodoWithTask where
  id : String
  task_id : Option String
  title : String
  date : String
  completed : Bool
  memo : Option String
  created_at : String
  task_title : Option String
  project_name : Option String
deriving DecidableEq, Repr

/-- The persistent store: the three tables created by `init_schema`. -/
structure Database where
  projects : List Project
  tasks : List Task
  todos : List DailyTodo
deriving DecidableEq, Repr

/-- A freshly initialised store (empty tables). -/
def Database.empty : Database :=
  { projects := [], tasks := [], todos := [] }

/-- The errors the modelled code paths can raise (`rusqlite::Error`). -/
inductive DbErr where
  | queryReturnedNoRows
deriving DecidableEq, Repr

/-- The rows of `tasks` matching `WHERE project_id = ?1 AND parent_id IS ?2`
(`IS` compares NULLs as equal, i.e. plain `Option` equality). -/
def groupTasks (tasks : List Task) (pid : String) (par : Option String) : List Task :=
  tasks.filter (fun t => t.project_id == pid && t.parent_id == par)

/-- `SELECT COALESCE(MAX(order_index), -1) + 1 FROM tasks WHERE project_id = ?1
AND parent_id IS ?2` from `create_task`. -/
def nextOrderIndex (tasks : List Task) (pid : String) (par : Option String) : Int :=
  (groupTasks tasks pid par).foldl (fun m t => max m t.order_index) (-1) + 1

/-- The caller-side inputs of one `create_task` call, together with the
generated identifier and timestamp. -/
structure CreateTaskArgs where
  id : String
  project_id : String
  parent_id : Option String
  title : String
  description : Option String
  status : String
  priority : Int
  start_date : Option String
  end_date : Option String
  created_at : String
deriving DecidableEq, Repr

/-- `Database::create_task`: computes the order index for the sibling group,
inserts the row with `progress = 0`, and returns the created record. -/
def create_task (s : Database) (a : CreateTaskArgs) : Task × Database :=
  let oi := nextOrderIndex s.tasks a.project_id a.parent_id
  let t : Task :=
    { id := a.id, project_id := a.project_id, parent_id := a.parent_id,
      title := a.title, description := a.description, status := a.status,
      priority := a.priority, start_date := a.start_date, end_date := a.end_date,
      progress := 0, order_index := oi, created_at := a.created_at }
  (t, { s with tasks := s.tasks ++ [t] })

/-- A sequence of `create_task` calls run left to right, collecting the
returned records (the Mutex in db.rs serialises calls, so sequential
composition is the faithful model). -/
def runCreateTasks (s : Database) : List CreateTaskArgs → List Task × Database
  | [] => ([], s)
  | a :: rest =>
    let r := create_task s a
    let rs := runCreateTasks r.2 rest
    (r.1 :: rs.1, rs.2)

/-- `Database::update_project`: blanket `UPDATE projects SET .. WHERE id = ?5`;
touching no row when the id is absent is not an error. -/
def update_project (s : Database) (id : String) (name : String)
    (description : Option String) (start_date : Option String)
    (end_date : Option String) : Database :=
  { s with projects := s.projects.map (fun p =>
      if p.id == id then
        { p with name := name, description := description,
                 start_date := start_date, end_date := end_date }
      else p) }

/-- `Database::update_task`: blanket `UPDATE tasks SET .. WHERE id = ?8`. -/
def update_task (s : Database) (id : String) (title : String)
    (description : Option String) (status : String) (priority : Int)
    (start_date : Option String) (end_date : Option String)
    (progress : Int) : Database :=
  { s with tasks := s.tasks.map (fun t =>
      if t.id == id then
        { t with title := title, description := description, status := status,
                 priority := priority, start_date := start_date,
                 end_date := end_date, progress := progress }
      else t) }

/-- `Database::update_task_dates`: `UPDATE tasks SET start_date = ?1,
end_date = ?2 WHERE id = ?3`. -/
def update_task_dates (s : Database) (id : String)
    (start_date : Option String) (end_date : Option String) : Database :=
  { s with tasks := s.tasks.map (fun t =>
      if t.id == id then
        { t with start_date := start_date, end_date := end_date }
      else t) }

/-- The membership test of one cascade round: a not-yet-dead task whose
parent is already dead. -/
def spreadPred (dead : List String) (t : Task) : Bool :=
  !dead.contains t.id &&
    (match t.parent_id with
     | some p => dead.contains p
     | none => false)

/-- One round of the declared `ON DELETE CASCADE` on `tasks.parent_id`: every
not-yet-dead task whose parent is dead joins the dead set. -/
def spread (tasks : List Task) (dead : List String) : List String :=
  dead ++ (tasks.filter (spreadPred dead)).map (fun t => t.id)

/-- The set of task ids removed by a cascading delete seeded at `roots`:
iterating `spread` `tasks.length` times reaches its least fixed point. -/
def deadIds (tasks : List Task) (roots : List String) : List String :=
  (spread tasks)^[tasks.length] roots

/-- `Database::delete_project`: `DELETE FROM projects WHERE id = ?1`; the
schema's `ON DELETE CASCADE` removes the project's tasks and, transitively
through `tasks.parent_id`, their descendants, while `ON DELETE SET NULL`
severs `daily_todos.task_id` references to every removed task. -/
def delete_project (s : Database) (pid : String) : Database :=
  let roots := (s.tasks.filter (fun t => t.project_id == pid)).map (fun t => t.id)
  let dead := deadIds s.tasks roots
  { projects := s.projects.filter (fun p => !(p.id == pid)),
    tasks := s.tasks.filter (fun t => !dead.contains t.id),
    todos := s.todos.map (fun d =>
      match d.task_id with
      | some tid => if dead.contains tid then { d with task_id := none } else d
      | none => d) }

/-- `Database::delete_task`: `DELETE FROM tasks WHERE id = ?1` with the same
declared cascade on descendants and severing of todo references. -/
def delete_task (s : Database) (id : String) : Database :=
  let roots := (s.tasks.filter (fun t => t.id == id)).map (fun t => t.id)
  let dead := deadIds s.tasks roots
  { projects := s.projects,
    tasks := s.tasks.filter (fun t => !dead.contains t.id),
    todos := s.todos.map (fun d =>
      match d.task_id with
      | some tid => if dead.contains tid then { d with task_id := none } else d
      | none => d) }

/-- `Database::create_daily_todo`: inserts with `completed = 0` and returns
the record; identifier and timestamp are the generated inputs. -/
def create_daily_todo (s : Database) (task_id : Option String) (title : String)
    (date : String) (memo : Option String) (id : String)
    (created_at : String) : DailyTodo × Database :=
  let d : DailyTodo :=
    { id := id, task_id := task_id, title := title, date := date,
      completed := false, memo := memo, created_at := created_at }
  (d, { s with todos := s.todos ++ [d] })

/-- The integer stored in the `completed` column (`0`/`1`). -/
def completedInt (b : Bool) : Nat :=
  if b then 1 else 0

/-- Code-point comparison of two strings, the order SQLite's BINARY
collation gives `TEXT` columns (computable form of `String` `≤`). -/
def strLe (a b : String) : Bool :=
  !(decide (b.data < a.data))

/-- The `ORDER BY dt.completed, dt.created_at` key of `get_todos_by_date` as
a boolean comparison for the stable sort. -/
def todoLe (a b : DailyTodoWithTask) : Bool :=
  decide (completedInt a.completed < completedInt b.completed) ||
    (completedInt a.completed == completedInt b.completed &&
      strLe a.created_at b.created_at)

/-- `todoLe` as a relation, for use with the stable sort. -/
def todoOrder (a b : DailyTodoWithTask) : Prop :=
  todoLe a b = true

instance : DecidableRel todoOrder :=
  fun a b => instDecidableEqBool (todoLe a b) true

/-- The `LEFT JOIN tasks t ON dt.task_id = t.id LEFT JOIN projects p ON
t.project_id = p.id` enrichment of one todo row. -/
def enrich (s : Database) (d : DailyTodo) : DailyTodoWithTask :=
  let t := d.task_id.bind (fun tid => s.tasks.find? (fun x => x.id == tid))
  let p := t.bind (fun x => s.projects.find? (fun q => q.id == x.project_id))
  { id := d.id, task_id := d.task_id, title := d.title, date := d.date,
    completed := d.completed, memo := d.memo, created_at := d.created_at,
    task_title := t.map (fun x => x.title),
    project_name := p.map (fun q => q.name) }

/-- `Database::get_todos_by_date`: rows `WHERE dt.date = ?1`, enriched by the
left joins, `ORDER BY dt.completed, dt.created_at` (a stable sort on the
two-part key; insertion sort here, since any stable sort models the SQL). -/
def get_todos_by_date (s : Database) (date : String) : List DailyTodoWithTask :=
  List.insertionSort todoOrder ((s.todos.filter (fun d => d.date == date)).map (enrich s))

/-- `Database::toggle_todo`: `query_row` on the id (errors with
`QueryReturnedNoRows` when absent), flips the stored `0`/`1`, writes it back
and returns whether the new value is `1`; the store component is the
post-call state. -/
def toggle_todo (s : Database) (id : String) : Except DbErr Bool × Database :=
  match s.todos.find? (fun d => d.id == id) with
  | none => (Except.error DbErr.queryReturnedNoRows, s)
  | some d =>
    let newVal := !d.completed
    (Except.ok newVal,
      { s with todos := s.todos.map (fun x =>
          if x.id == id then { x with completed := newVal } else x) })

/-- `Database::update_todo_memo`: blanket `UPDATE daily_todos SET memo`. -/
def update_todo_memo (s : Database) (id : String) (memo : Option String) : Database :=
  { s with todos := s.todos.map (fun d =>
      if d.id == id then { d with memo := memo } else d) }

/-- `Database::delete_todo`: `DELETE FROM daily_todos WHERE id = ?1`; nothing
references a todo, so no cascade. -/
def delete_todo (s : Database) (id : String) : Database :=
  { s with todos := s.todos.filter (fun d => !(d.id == id)) }

/-- `Database::add_task_to_todo`: `query_row` for the task's title (errors
with `QueryReturnedNoRows` when the task is absent), then
`create_daily_todo(Some(task_id), title, date, None)`. -/
def add_task_to_todo (s : Database) (task_id : String) (date : String)
    (id : String) (created_at : String) : Except DbErr DailyTodo × Database :=
  match s.tasks.find? (fun t => t.id == task_id) with
  | none => (Except.error DbErr.queryReturnedNoRows, s)
  | some t =>
    let r := create_daily_todo s (some task_id) t.title date none id created_at
    (Except.ok r.1, r.2)

/-- The `"{}: "` project label prepended to a report line when the joined
project name is present (commands.rs `generate_daily_report`). -/
def projLabel (todo : DailyTodoWithTask) : String :=
  match todo.project_name with
  | some project => project ++ ": "
  | none => ""

/-- The completed-section loop of `generate_daily_report`: a `- [x] ` line
per todo, followed by an indented memo line when the memo is non-empty. -/
def completedLines : List DailyTodoWithTask → String
  | [] => ""
  | todo :: rest =>
    let line := "- [x] " ++ projLabel todo ++ todo.title ++ "\n"
    let memoLine :=
      match todo.memo with
      | some m => if m.isEmpty then "" else "  - " ++ m ++ "\n"
      | none => ""
    line ++ memoLine ++ completedLines rest

/-- The incomplete-section loop of `generate_daily_report`: a `- [ ] ` line
per todo and no memo lines. -/
def incompleteLines : List DailyTodoWithTask → String
  | [] => ""
  | todo :: rest =>
    "- [ ] " ++ projLabel todo ++ todo.title ++ "\n" ++ incompleteLines rest

/-- `generate_daily_report` (commands.rs): fetches the date's todos,
partitions by `completed`, renders the title line, the two sections with the
`なし` placeholder when empty, and the final memo section when the caller
memo is non-empty. -/
def generate_daily_report (s : Database) (date : String) (memo : String) : String :=
  let todos := get_todos_by_date s date
  let completed := todos.filter (fun t => t.completed)
  let incomplete := todos.filter (fun t => !t.completed)
  let r1 := "# 日報 - " ++ date ++ "\n\n" ++ "## 完了したタスク\n"
  let r2 := if completed.isEmpty then r1 ++ "なし\n" else r1 ++ completedLines completed
  let r3 := r2 ++ "\n## 未完了のタスク\n"
  let r4 := if incomplete.isEmpty then r3 ++ "なし\n" else r3 ++ incompleteLines incomplete
  if memo.isEmpty then r4 else r4 ++ ("\n## メモ\n" ++ memo ++ "\n")

/-- A small concrete store (one project, one task under it, one linked todo)
used to instantiate theorems with hypotheses at concrete inputs. -/
def demoStore9 : Database :=
  { projects := [{ id := "p1", name := "Alpha", description := none,
                   start_date := none, end_date := none,
                   created_at := "2024-01-01 08:00:00" }],
    tasks := [{ id := "t1", project_id := "p1", parent_id := none,
                title := "Write spec", description := none, status := "pending",
                priority := 0, start_date := none, end_date := none,
                progress := 0, order_index := 0,
                created_at := "2024-01-01 09:00:00" }],
    todos := [{ id := "d1", task_id := some "t1", title := "Write spec",
                date := "2024-01-15", completed := false, memo := none,
                created_at := "2024-01-15 09:00:00" }] }

/-- The C7 scenario: project "Alpha" with a task "Write spec", a completed
todo for that task with memo "done early", and a freestanding incomplete todo
"Review PR", all on 2024-01-15. -/
def reportStore : Database :=
  { projects := [{ id := "p1", name := "Alpha", description := none,
                   start_date := none, end_date := none,
                   created_at := "2024-01-01 08:00:00" }],
    tasks := [{ id := "t1", project_id := "p1", parent_id := none,
                title := "Write spec", description := none, status := "pending",
                priority := 0, start_date := none, end_date := none,
                progress := 0, order_index := 0,
                created_at := "2024-01-01 09:00:00" }],
    todos := [{ id := "d1", task_id := some "t1", title := "Write spec",
                date := "2024-01-15", completed := true,
                memo := some "done early",
                created_at := "2024-01-15 09:00:00" },
              { id := "d2", task_id := none, title := "Review PR",
                date := "2024-01-15", completed := false, memo := none,
                created_at := "2024-01-15 10:00:00" }] }

/-- The C7 scenario with a memo additionally attached to the incomplete todo,
to exhibit that memos are rendered only for completed items. -/
def reportStore2 : Database :=
  { reportStore with
    todos := [{ id := "d1", task_id := some "t1", title := "Write spec",
                date := "2024-01-15", completed := true,
                memo := some "done early",
                created_at := "2024-01-15 09:00:00" },
              { id := "d2", task_id := none, title := "Review PR",
                date := "2024-01-15", completed := false,
                memo := some "draft notes",
                created_at := "2024-01-15 10:00:00" }] }

/-- The C3 example: todos A (incomplete, created 09:00), B (completed,
created 08:00) and C (incomplete, created 10:00), all dated 2024-01-01. -/
def exampleStore : Database :=
  { projects := [], tasks := [],
    todos := [{ id := "A", task_id := none, title := "A", date := "2024-01-01",
                completed := false, memo := none,
                created_at := "2024-01-01 09:00:00" },
              { id := "B", task_id := none, title := "B", date := "2024-01-01",
                completed := true, memo := none,
                created_at := "2024-01-01 08:00:00" },
              { id := "C", task_id := none, title := "C", date := "2024-01-01",
                completed := false, memo := none,
                created_at := "2024-01-01 10:00:00" }] }

/-- Three concrete `create_task` calls: two in the sibling group of project
"p" with no parent, interleaved with one call for another project. -/
def c1Calls : List CreateTaskArgs :=
  [{ id := "x1", project_id := "p", parent_id := none, title := "first",
     description := none, status := "pending", priority := 0,
     start_date := none, end_date := none, created_at := "t1" },
   { id := "y1", project_id := "q", parent_id := none, title := "other",
     description := none, status := "pending", priority := 0,
     start_date := none, end_date := none, created_at := "t2" },
   { id := "x2", project_id := "p", parent_id := none, title := "second",
     description := none, status := "pending", priority := 0,
     start_date := none, end_date := none, created_at := "t3" }]

/-- Task `t` must be removed by the cascade of deleting project `pid`: it is
owned by the project, or (recursively) its parent task is itself doomed —
the transitive `ON DELETE CASCADE` through `tasks.parent_id`. -/
inductive Doomed (tasks : List Task) (pid : String) : Task → Prop where
  | root (t : Task) : t ∈ tasks → t.project_id = pid → Doomed tasks pid t
  | child (t u : Task) : t ∈ tasks → t.parent_id = some u.id →
      Doomed tasks pid u → Doomed tasks pid t

/-- Concrete task under project "p1" for the cascade witness. -/
def c2t1 : Task :=
  { id := "t1", project_id := "p1", parent_id := none, title := "T1",
    description := none, status := "pending", priority := 0,
    start_date := none, end_date := none, progress := 0, order_index := 0,
    created_at := "2024-01-02 08:00:00" }

/-- Concrete child task of `c2t1` (nested one level). -/
def c2t2 : Task :=
  { c2t1 with id := "t2", parent_id := some "t1", title := "T2" }

/-- Concrete task under the unrelated project "p2". -/
def c2t3 : Task :=
  { c2t1 with id := "t3", project_id := "p2", title := "T3" }

/-- Concrete todo linked to the doomed task `c2t2`. -/
def c2d1 : DailyTodo :=
  { id := "d1", task_id := some "t2", title := "D1", date := "2024-01-15",
    completed := false, memo := some "keep me",
    created_at := "2024-01-15 09:00:00" }

/-- Concrete todo linked to the surviving task `c2t3`. -/
def c2d2 : DailyTodo :=
  { c2d1 with id := "d2", task_id := some "t3", title := "D2", memo := none }

/-- Concrete store for the cascade witness: two projects, a two-level task
chain under "p1", one task under "p2", and todos linked to both sides. -/
def c2Store : Database :=
  { projects := [{ id := "p1", name := "P1", description := none,
                   start_date := none, end_date := none,
                   created_at := "2024-01-01 00:00:00" },
                 { id := "p2", name := "P2", description := none,
                   start_date := none, end_date := none,
                   created_at := "2024-01-01 00:00:00" }],
    tasks := [c2t1, c2t2, c2t3],
    todos := [c2d1, c2d2] }

/-! ### Helper lemmas -/

theorem map_self_of_fixed {α : Type} {l : List α} {f : α → α}
    (h : ∀ a ∈ l, f a = a) : l.map f = l := by
  induction l with
  | nil => rfl
  | cons x xs ih =>
    simp only [List.map_cons, h x (List.mem_cons_self x xs)]
    exact congrArg (x :: ·) (ih (fun a ha => h a (List.mem_cons_of_mem x ha)))

theorem spreadPred_nil (t : Task) : spreadPred [] t = false := by
  unfold spreadPred
  cases h : t.parent_id <;> simp [h]

theorem spread_nil (tasks : List Task) : spread tasks [] = [] := by
  simp only [spread, List.nil_append]
  have hfil : tasks.filter (spreadPred []) = [] := by
    rw [List.filter_eq_nil_iff]
    intro t _
    simp [spreadPred_nil]
  rw [hfil, List.map_nil]

theorem deadIds_nil (tasks : List Task) : deadIds tasks [] = [] := by
  unfold deadIds
  induction tasks.length with
  | zero => rfl
  | succ n ih => rw [Function.iterate_succ_apply, spread_nil, ih]

/-! ### C5: toggleTodo on a missing identifier errors, store unchanged -/

/-- C5: for every identifier that names no existing DailyTodo, `toggle_todo`
fails with the `QueryReturnedNoRows` storage error (it does not silently
no-op) and returns the store unchanged. -/
theorem toggle_todo_missing_id_errors (s : Database) (id : String)
    (h : id ∉ s.todos.map (fun d => d.id)) :
    toggle_todo s id = (Except.error DbErr.queryReturnedNoRows, s) := by
  have hf : s.todos.find? (fun d => d.id == id) = none := by
    rw [List.find?_eq_none]
    intro d hd
    simp only [beq_iff_eq]
    intro hEq
    exact h (List.mem_map.mpr ⟨d, hd, hEq⟩)
  simp [toggle_todo, hf]

/-- Witness for C5 on a one-todo store and an id that is not in it. -/
theorem toggle_todo_missing_id_errors_witness :
    toggle_todo
      { projects := [], tasks := [],
        todos := [{ id := "d1", task_id := none, title := "t", date := "2024-01-01",
                    completed := false, memo := none, created_at := "09:00" }] } "dX"
      = (Except.error DbErr.queryReturnedNoRows,
         { projects := [], tasks := [],
           todos := [{ id := "d1", task_id := none, title := "t", date := "2024-01-01",
                       completed := false, memo := none, created_at := "09:00" }] }) :=
  toggle_todo_missing_id_errors _ "dX" (by decide)

/-! ### C9: updates addressed at a missing identifier are no-ops -/

/-- C9: for every identifier that names no existing Project (resp. Task),
`update_project`, `update_task` and `update_task_dates` complete without
error and leave the entire store unchanged. -/
theorem update_missing_id_noop (s : Database) (id nm st : String)
    (de sd ed : Option String) (pr pg : Int)
    (hp : id ∉ s.projects.map (fun p => p.id))
    (ht : id ∉ s.tasks.map (fun t => t.id)) :
    update_project s id nm de sd ed = s ∧
    update_task s id nm de st pr sd ed pg = s ∧
    update_task_dates s id sd ed = s := by
  have hp' : ∀ p ∈ s.projects, (p.id == id) = false := by
    intro p hmem
    simp only [beq_eq_false_iff_ne, ne_eq]
    intro hEq
    exact hp (List.mem_map.mpr ⟨p, hmem, hEq⟩)
  have ht' : ∀ t ∈ s.tasks, (t.id == id) = false := by
    intro t hmem
    simp only [beq_eq_false_iff_ne, ne_eq]
    intro hEq
    exact ht (List.mem_map.mpr ⟨t, hmem, hEq⟩)
  refine ⟨?_, ?_, ?_⟩
  · show { s with projects := _ } = s
    rw [map_self_of_fixed (fun p hmem => by rw [hp' p hmem]; rfl)]
  · show { s with tasks := _ } = s
    rw [map_self_of_fixed (fun t hmem => by rw [ht' t hmem]; rfl)]
  · show { s with tasks := _ } = s
    rw [map_self_of_fixed (fun t hmem => by rw [ht' t hmem]; rfl)]

/-- Witness for C9 on a store holding one project and one task, with a fresh
identifier. -/
theorem update_missing_id_noop_witness :
    update_project demoStore9 "zz" "n" none none none = demoStore9 ∧
    update_task demoStore9 "zz" "n" none "pending" 1 none none 5 = demoStore9 ∧
    update_task_dates demoStore9 "zz" none none = demoStore9 :=
  update_missing_id_noop demoStore9 "zz" "n" "pending" none none none 1 5
    (by decide) (by decide)

/-! ### C10: deletes addressed at a missing identifier are no-ops -/

/-- C10: for every identifier that names no existing record, `delete_project`,
`delete_task` and `delete_todo` complete without error (absence is not
surfaced, unlike `toggle_todo`, whose result type is fallible) and leave the
entire store unchanged.  The last hypothesis is the foreign-key
well-formedness of the store (every task's `project_id` references an
existing project), which the schema enforces. -/
theorem delete_missing_id_noop (s : Database) (id : String)
    (hp : id ∉ s.projects.map (fun p => p.id))
    (ht : id ∉ s.tasks.map (fun t => t.id))
    (hd : id ∉ s.todos.map (fun d => d.id))
    (hwf : ∀ t ∈ s.tasks, t.project_id ∈ s.projects.map (fun p => p.id)) :
    delete_project s id = s ∧ delete_task s id = s ∧ delete_todo s id = s := by
  have hkeepP : s.projects.filter (fun p => !(p.id == id)) = s.projects := by
    rw [List.filter_eq_self]
    intro p hmem
    simp only [Bool.not_eq_eq_eq_not, Bool.not_true, beq_eq_false_iff_ne, ne_eq]
    intro hEq
    exact hp (List.mem_map.mpr ⟨p, hmem, hEq⟩)
  have hkeepT : s.tasks.filter (fun t => !([] : List String).contains t.id) = s.tasks := by
    rw [List.filter_eq_self]
    intro t _
    simp
  have hkeepD : s.todos.map (fun d =>
      match d.task_id with
      | some tid =>
        if ([] : List String).contains tid then { d with task_id := none } else d
      | none => d) = s.todos := by
    apply map_self_of_fixed
    intro d _
    cases hdt : d.task_id <;> simp [hdt]
  refine ⟨?_, ?_, ?_⟩
  · have hroots : s.tasks.filter (fun t => t.project_id == id) = [] := by
      rw [List.filter_eq_nil_iff]
      intro t hmem
      simp only [beq_iff_eq]
      intro hEq
      exact hp (hEq ▸ hwf t hmem)
    show delete_project s id = s
    simp only [delete_project]
    rw [hroots, List.map_nil, deadIds_nil, hkeepP, hkeepT, hkeepD]
  · have hroots : s.tasks.filter (fun t => t.id == id) = [] := by
      rw [List.filter_eq_nil_iff]
      intro t hmem
      simp only [beq_iff_eq]
      intro hEq
      exact ht (List.mem_map.mpr ⟨t, hmem, hEq⟩)
    show delete_task s id = s
    simp only [delete_task]
    rw [hroots, List.map_nil, deadIds_nil, hkeepT, hkeepD]
  · have hkeep : s.todos.filter (fun d => !(d.id == id)) = s.todos := by
      rw [List.filter_eq_self]
      intro d hmem
      simp only [Bool.not_eq_eq_eq_not, Bool.not_true, beq_eq_false_iff_ne, ne_eq]
      intro hEq
      exact hd (List.mem_map.mpr ⟨d, hmem, hEq⟩)
    show delete_todo s id = s
    simp only [delete_todo]
    rw [hkeep]

/-- Witness for C10 on the concrete store with a fresh identifier. -/
theorem delete_missing_id_noop_witness :
    delete_project demoStore9 "zz" = demoStore9 ∧
    delete_task demoStore9 "zz" = demoStore9 ∧
    delete_todo demoStore9 "zz" = demoStore9 :=
  delete_missing_id_noop demoStore9 "zz" (by decide) (by decide) (by decide)
    (by decide)

/-! ### C4: toggleTodo is an involution -/

theorem find?_map_toggle (id : String) (v : Bool) :
    ∀ (l : List DailyTodo) (d : DailyTodo),
      l.find? (fun x => x.id == id) = some d →
      (l.map (fun x => if x.id == id then { x with completed := v } else x)).find?
        (fun x => x.id == id) = some { d with completed := v } := by
  intro l
  induction l with
  | nil => intro d h; simp at h
  | cons x xs ih =>
    intro d h
    by_cases hx : (x.id == id) = true
    · simp only [List.find?_cons, hx] at h
      cases h
      have hxx : x.id = id := by simpa using hx
      simp [List.find?_cons, hxx]
    · have hx' : (x.id == id) = false := by simpa using hx
      simp only [List.find?_cons, hx'] at h
      simp only [List.map_cons]
      rw [if_neg (by simp [hx'])]
      simp only [List.find?_cons, hx']
      exact ih d h

/-- C4: `toggle_todo` is an involution: starting from any store whose lookup
of `id` yields the row `d`, the first call returns `!d.completed` and stores
exactly that value, the second call (with no intervening change) returns
`d.completed` and restores the original row `d`, and each call's returned
boolean equals the stored `completed` value immediately after that call. -/
theorem toggle_todo_involution (s : Database) (id : String) (d : DailyTodo)
    (h : s.todos.find? (fun x => x.id == id) = some d) :
    (toggle_todo s id).1 = Except.ok (!d.completed) ∧
    ((toggle_todo s id).2.todos.find? (fun x => x.id == id))
      = some { d with completed := !d.completed } ∧
    (toggle_todo (toggle_todo s id).2 id).1 = Except.ok d.completed ∧
    ((toggle_todo (toggle_todo s id).2 id).2.todos.find? (fun x => x.id == id))
      = some d := by
  have h1 : toggle_todo s id = (Except.ok (!d.completed),
      { s with todos := s.todos.map (fun x =>
          if x.id == id then { x with completed := !d.completed } else x) }) := by
    simp [toggle_todo, h]
  have h2 := find?_map_toggle id (!d.completed) s.todos d h
  refine ⟨by rw [h1], by rw [h1]; exact h2, ?_, ?_⟩
  · rw [h1]
    simp only [toggle_todo, h2, Bool.not_not]
  · rw [h1]
    simp only [toggle_todo, h2]
    have h3 := find?_map_toggle id (!(!d.completed)) _ _ h2
    simp only [Bool.not_not] at h3 ⊢
    exact h3

/-- Witness for C4 on the concrete store (its todo `d1` is incomplete). -/
theorem toggle_todo_involution_witness :
    (toggle_todo demoStore9 "d1").1 = Except.ok true ∧
    ((toggle_todo demoStore9 "d1").2.todos.find? (fun x => x.id == "d1"))
      = some { id := "d1", task_id := some "t1", title := "Write spec",
               date := "2024-01-15", completed := true, memo := none,
               created_at := "2024-01-15 09:00:00" } ∧
    (toggle_todo (toggle_todo demoStore9 "d1").2 "d1").1 = Except.ok false ∧
    ((toggle_todo (toggle_todo demoStore9 "d1").2 "d1").2.todos.find?
        (fun x => x.id == "d1"))
      = some { id := "d1", task_id := some "t1", title := "Write spec",
               date := "2024-01-15", completed := false, memo := none,
               created_at := "2024-01-15 09:00:00" } :=
  toggle_todo_involution demoStore9 "d1"
    { id := "d1", task_id := some "t1", title := "Write spec",
      date := "2024-01-15", completed := false, memo := none,
      created_at := "2024-01-15 09:00:00" } (by decide)

/-! ### C6: addTaskToTodo errors on a missing task, else creates fresh rows -/

/-- C6: `add_task_to_todo` fails with the `QueryReturnedNoRows` storage error
(store unchanged) when `taskId` names no existing task; when the task exists,
each call creates a new DailyTodo carrying the supplied fresh identifier, the
task link, the task's title as read at call time, and `completed = false`, so
two successive calls with the same task and date yield two records that are
distinct whenever the second generated identifier is fresh for the
intermediate store (as UUID generation guarantees). -/
theorem add_task_to_todo_spec (s : Database) (tid date id1 ca1 id2 ca2 : String) :
    (s.tasks.find? (fun x => x.id == tid) = none →
      add_task_to_todo s tid date id1 ca1
        = (Except.error DbErr.queryReturnedNoRows, s)) ∧
    (∀ t, s.tasks.find? (fun x => x.id == tid) = some t →
      ∃ d1 s1 d2 s2,
        add_task_to_todo s tid date id1 ca1 = (Except.ok d1, s1) ∧
        add_task_to_todo s1 tid date id2 ca2 = (Except.ok d2, s2) ∧
        d1.id = id1 ∧ d2.id = id2 ∧
        d1.task_id = some tid ∧ d2.task_id = some tid ∧
        d1.title = t.title ∧ d2.title = t.title ∧
        d1.completed = false ∧ d2.completed = false ∧
        d1 ∈ s2.todos ∧ d2 ∈ s2.todos ∧
        (id2 ∉ s1.todos.map (fun d => d.id) → d1.id ≠ d2.id)) := by
  constructor
  · intro h
    simp [add_task_to_todo, h]
  · intro t ht
    refine ⟨{ id := id1, task_id := some tid, title := t.title, date := date,
              completed := false, memo := none, created_at := ca1 },
            { s with todos := s.todos ++
                [{ id := id1, task_id := some tid, title := t.title,
                   date := date, completed := false, memo := none,
                   created_at := ca1 }] },
            { id := id2, task_id := some tid, title := t.title, date := date,
              completed := false, memo := none, created_at := ca2 },
            { s with todos := (s.todos ++
                [{ id := id1, task_id := some tid, title := t.title,
                   date := date, completed := false, memo := none,
                   created_at := ca1 }]) ++
                [{ id := id2, task_id := some tid, title := t.title,
                   date := date, completed := false, memo := none,
                   created_at := ca2 }] },
            ?_, ?_, rfl, rfl, rfl, rfl, rfl, rfl, rfl, rfl, ?_, ?_, ?_⟩
    · simp [add_task_to_todo, create_daily_todo, ht]
    · simp [add_task_to_todo, create_daily_todo, ht]
    · simp
    · simp
    · intro hfresh hEq
      have hids : id1 = id2 := hEq
      apply hfresh
      rw [← hids]
      simp

/-- Witness for C6: the missing-task branch on the empty store and the
two-call branch on the concrete store. -/
theorem add_task_to_todo_spec_witness :
    (add_task_to_todo Database.empty "t1" "2024-01-15" "dA" "10:00"
      = (Except.error DbErr.queryReturnedNoRows, Database.empty)) ∧
    (∃ d1 s1 d2 s2,
      add_task_to_todo demoStore9 "t1" "2024-01-15" "dA" "10:00" = (Except.ok d1, s1) ∧
      add_task_to_todo s1 "t1" "2024-01-15" "dB" "10:05" = (Except.ok d2, s2) ∧
      d1.id = "dA" ∧ d2.id = "dB" ∧
      d1.task_id = some "t1" ∧ d2.task_id = some "t1" ∧
      d1.title = "Write spec" ∧ d2.title = "Write spec" ∧
      d1.completed = false ∧ d2.completed = false ∧
      d1 ∈ s2.todos ∧ d2 ∈ s2.todos ∧
      ("dB" ∉ s1.todos.map (fun d => d.id) → d1.id ≠ d2.id)) := by
  constructor
  · exact (add_task_to_todo_spec Database.empty "t1" "2024-01-15" "dA" "10:00"
      "dB" "10:05").1 (by decide)
  · exact (add_task_to_todo_spec demoStore9 "t1" "2024-01-15" "dA" "10:00"
      "dB" "10:05").2
      { id := "t1", project_id := "p1", parent_id := none, title := "Write spec",
        description := none, status := "pending", priority := 0,
        start_date := none, end_date := none, progress := 0, order_index := 0,
        created_at := "2024-01-01 09:00:00" } (by decide)

/-! ### C7: generateDailyReport on the two-todo scenario -/

/-- C7: on the scenario store, the report's completed section contains the
line `- [x] Alpha: Write spec` immediately followed by the indented memo line
`  - done early`, the incomplete section contains `- [ ] Review PR` with no
memo line, and the document ends with a memo section containing `Focus day`;
the second conjunct attaches a memo to the incomplete todo and produces the
same text, showing memos are rendered only for completed items. -/
theorem generate_daily_report_example :
    generate_daily_report reportStore "2024-01-15" "Focus day"
      = "# 日報 - 2024-01-15\n\n## 完了したタスク\n- [x] Alpha: Write spec\n  - done early\n\n## 未完了のタスク\n- [ ] Review PR\n\n## メモ\nFocus day\n" ∧
    generate_daily_report reportStore2 "2024-01-15" "Focus day"
      = "# 日報 - 2024-01-15\n\n## 完了したタスク\n- [x] Alpha: Write spec\n  - done early\n\n## 未完了のタスク\n- [ ] Review PR\n\n## メモ\nFocus day\n" := by
  constructor <;> decide

/-! ### C8: generateDailyReport on a date with no todos and empty memo -/

/-- C8: for every store and date with no todos stored under that date,
`generate_daily_report` with an empty caller memo succeeds (it is total once
the fetch is) and produces the document with the literal `なし` ("none")
placeholder in both the completed and incomplete sections and no memo
section. -/
theorem generate_daily_report_empty_date (s : Database) (date : String)
    (h : s.todos.filter (fun d => d.date == date) = []) :
    generate_daily_report s date "" =
      "# 日報 - " ++ date ++ "\n\n" ++ "## 完了したタスク\n" ++ "なし\n" ++
        "\n## 未完了のタスク\n" ++ "なし\n" := by
  unfold generate_daily_report get_todos_by_date
  rw [h]
  simp
  intro hc
  exact absurd hc (by decide)

/-- Witness for C8: the concrete store holds no todos dated 2024-02-02. -/
theorem generate_daily_report_empty_date_witness :
    generate_daily_report demoStore9 "2024-02-02" "" =
      "# 日報 - " ++ "2024-02-02" ++ "\n\n" ++ "## 完了したタスク\n" ++ "なし\n" ++
        "\n## 未完了のタスク\n" ++ "なし\n" :=
  generate_daily_report_empty_date demoStore9 "2024-02-02" (by decide)

/-! ### C3: listTodosByDate filters exactly and orders by (completed, created) -/

theorem strLe_iff (a b : String) : strLe a b = true ↔ a ≤ b := by
  simp [strLe, String.le_iff_toList_le, String.toList]

theorem todoOrder_iff (a b : DailyTodoWithTask) :
    todoOrder a b ↔ ((a.completed = false ∧ b.completed = true) ∨
      (a.completed = b.completed ∧ a.created_at ≤ b.created_at)) := by
  cases ha : a.completed <;> cases hb : b.completed <;>
    simp [todoOrder, todoLe, completedInt, ha, hb, strLe_iff]

theorem todoOrder_total (a b : DailyTodoWithTask) : todoOrder a b ∨ todoOrder b a := by
  rw [todoOrder_iff, todoOrder_iff]
  cases ha : a.completed <;> cases hb : b.completed
  · rcases le_total a.created_at b.created_at with hle | hle
    · exact Or.inl (Or.inr ⟨rfl, hle⟩)
    · exact Or.inr (Or.inr ⟨rfl, hle⟩)
  · exact Or.inl (Or.inl ⟨rfl, rfl⟩)
  · exact Or.inr (Or.inl ⟨rfl, rfl⟩)
  · rcases le_total a.created_at b.created_at with hle | hle
    · exact Or.inl (Or.inr ⟨rfl, hle⟩)
    · exact Or.inr (Or.inr ⟨rfl, hle⟩)

theorem todoOrder_trans {a b c : DailyTodoWithTask} :
    todoOrder a b → todoOrder b c → todoOrder a c := by
  rw [todoOrder_iff, todoOrder_iff, todoOrder_iff]
  rintro (⟨h1, h2⟩ | ⟨h1, h2⟩) (⟨h3, h4⟩ | ⟨h3, h4⟩)
  · rw [h2] at h3
    exact Bool.noConfusion h3
  · exact Or.inl ⟨h1, h3 ▸ h2⟩
  · exact Or.inl ⟨h1.trans h3, h4⟩
  · exact Or.inr ⟨h1.trans h3, le_trans h2 h4⟩

instance : IsTotal DailyTodoWithTask todoOrder :=
  ⟨todoOrder_total⟩

instance : IsTrans DailyTodoWithTask todoOrder :=
  ⟨fun _ _ _ => todoOrder_trans⟩

/-- C3: `get_todos_by_date` returns a permutation of exactly the enriched
todos stored under the requested date, every returned row carries that date,
consecutive rows are ordered with incomplete (`completed = false`) rows
before completed ones and by creation timestamp ascending within each group,
and on the claim's example store A(incomplete, 09:00), B(completed, 08:00),
C(incomplete, 10:00) the returned order is [A, C, B]. -/
theorem get_todos_by_date_spec (s : Database) (date : String) :
    (get_todos_by_date s date).Perm
      ((s.todos.filter (fun d => d.date == date)).map (enrich s)) ∧
    (∀ r ∈ get_todos_by_date s date, r.date = date) ∧
    (get_todos_by_date s date).Pairwise (fun a b =>
      (a.completed = false ∧ b.completed = true) ∨
        (a.completed = b.completed ∧ a.created_at ≤ b.created_at)) ∧
    (get_todos_by_date exampleStore "2024-01-01").map (fun r => r.id)
      = ["A", "C", "B"] := by
  refine ⟨List.perm_insertionSort todoOrder _, ?_, ?_, by decide⟩
  · intro r hr
    have hmem : r ∈ (s.todos.filter (fun d => d.date == date)).map (enrich s) :=
      ((List.perm_insertionSort todoOrder _).mem_iff).mp hr
    obtain ⟨d, hd, rfl⟩ := List.mem_map.mp hmem
    have hdd : (d.date == date) = true := (List.mem_filter.mp hd).2
    simpa [enrich] using hdd
  · have hs := List.sorted_insertionSort todoOrder
      ((s.todos.filter (fun d => d.date == date)).map (enrich s))
    exact List.Pairwise.imp (fun hab => (todoOrder_iff _ _).mp hab) hs

/-- Witness for C3's quantified parts: the A row of the example query indeed
carries the queried date. -/
theorem get_todos_by_date_spec_witness :
    (enrich exampleStore
      { id := "A", task_id := none, title := "A", date := "2024-01-01",
        completed := false, memo := none,
        created_at := "2024-01-01 09:00:00" }).date = "2024-01-01" :=
  (get_todos_by_date_spec exampleStore "2024-01-01").2.1 _ (by decide)

/-! ### C1: order_index values are dense and sequential per sibling group -/

theorem range_map_base (k : Int) (n : Nat) :
    (List.range (n + 1)).map (fun i : Nat => k + (i : Int))
      = k :: (List.range n).map (fun i : Nat => (k + 1) + (i : Int)) := by
  rw [List.range_succ_eq_map, List.map_cons, List.map_map]
  refine congrArg₂ _ (by simp) ?_
  apply List.map_congr_left
  intro i _
  simp only [Function.comp_apply]
  push_cast
  ring

theorem nextOrderIndex_append_group (ts : List Task) (pid : String)
    (par : Option String) (t : Task)
    (hpred : (t.project_id == pid && t.parent_id == par) = true)
    (hidx : t.order_index = nextOrderIndex ts pid par) :
    nextOrderIndex (ts ++ [t]) pid par = nextOrderIndex ts pid par + 1 := by
  have hfil : groupTasks (ts ++ [t]) pid par = groupTasks ts pid par ++ [t] := by
    unfold groupTasks
    rw [List.filter_append]
    simp [hpred]
  unfold nextOrderIndex
  rw [hfil, List.foldl_append, List.foldl_cons, List.foldl_nil, hidx]
  unfold nextOrderIndex
  rw [max_eq_right (by omega)]

theorem nextOrderIndex_append_other (ts : List Task) (pid : String)
    (par : Option String) (t : Task)
    (hpred : (t.project_id == pid && t.parent_id == par) = false) :
    nextOrderIndex (ts ++ [t]) pid par = nextOrderIndex ts pid par := by
  have hfil : groupTasks (ts ++ [t]) pid par = groupTasks ts pid par := by
    unfold groupTasks
    rw [List.filter_append]
    simp [hpred]
  unfold nextOrderIndex
  rw [hfil]

theorem runCreateTasks_group_indices (pid : String) (par : Option String) :
    ∀ (calls : List CreateTaskArgs) (s : Database),
      ((runCreateTasks s calls).1.filter
          (fun t => t.project_id == pid && t.parent_id == par)).map
          (fun t => t.order_index)
        = (List.range ((calls.filter
            (fun a => a.project_id == pid && a.parent_id == par)).length)).map
            (fun i : Nat => nextOrderIndex s.tasks pid par + (i : Int)) := by
  intro calls
  induction calls with
  | nil => intro s; rfl
  | cons a rest ih =>
    intro s
    by_cases hg : (a.project_id == pid && a.parent_id == par) = true
    · have hpred : ((create_task s a).1.project_id == pid &&
          (create_task s a).1.parent_id == par) = true := hg
      have hnext : nextOrderIndex ((create_task s a).2).tasks pid par
          = nextOrderIndex s.tasks pid par + 1 := by
        apply nextOrderIndex_append_group s.tasks pid par (create_task s a).1 hpred
        have hpid : a.project_id = pid := by
          have := (Bool.and_eq_true _ _).mp hg
          exact beq_iff_eq.mp this.1
        have hpar : a.parent_id = par := by
          have := (Bool.and_eq_true _ _).mp hg
          exact beq_iff_eq.mp this.2
        show nextOrderIndex s.tasks a.project_id a.parent_id = _
        rw [hpid, hpar]
      have hrec := ih (create_task s a).2
      rw [hnext] at hrec
      simp only [runCreateTasks, List.filter_cons, hpred, hg, eq_self_iff_true,
        if_true, List.map_cons, List.length_cons]
      rw [hrec, range_map_base]
      have hoi : (create_task s a).1.order_index
          = nextOrderIndex s.tasks pid par := by
        have hpid : a.project_id = pid := by
          have := (Bool.and_eq_true _ _).mp hg
          exact beq_iff_eq.mp this.1
        have hpar : a.parent_id = par := by
          have := (Bool.and_eq_true _ _).mp hg
          exact beq_iff_eq.mp this.2
        show nextOrderIndex s.tasks a.project_id a.parent_id = _
        rw [hpid, hpar]
      rw [hoi]
    · have hg' : (a.project_id == pid && a.parent_id == par) = false :=
        Bool.not_eq_true _ ▸ eq_false_of_ne_true hg
      have hpred : ((create_task s a).1.project_id == pid &&
          (create_task s a).1.parent_id == par) = false := hg'
      have hnext : nextOrderIndex ((create_task s a).2).tasks pid par
          = nextOrderIndex s.tasks pid par :=
        nextOrderIndex_append_other s.tasks pid par (create_task s a).1 hpred
      have hrec := ih (create_task s a).2
      rw [hnext] at hrec
      simp only [runCreateTasks, List.filter_cons, hpred, hg', Bool.false_eq_true,
        if_false, List.map_cons]
      exact hrec

/-- C1: starting from any store whose sibling group `(pid, par)` is empty
(an absent parent is a distinct group key from any present one), the
`order_index` values that `create_task` assigns to the calls of that group
are exactly 0, 1, 2, … in call order, regardless of interleaved calls for
other `(project, parent)` pairs. -/
theorem create_task_order_index_dense (s : Database) (pid : String)
    (par : Option String) (calls : List CreateTaskArgs)
    (h : groupTasks s.tasks pid par = []) :
    ((runCreateTasks s calls).1.filter
        (fun t => t.project_id == pid && t.parent_id == par)).map
        (fun t => t.order_index)
      = (List.range ((calls.filter
          (fun a => a.project_id == pid && a.parent_id == par)).length)).map
          (fun i : Nat => (i : Int)) := by
  have hk : nextOrderIndex s.tasks pid par = 0 := by
    simp [nextOrderIndex, h]
  have hmain := runCreateTasks_group_indices pid par calls s
  rw [hk] at hmain
  simpa using hmain

/-- Witness for C1: the three concrete calls (two for group ("p", none), one
interleaved for project "q") from the empty store. -/
theorem create_task_order_index_dense_witness :
    ((runCreateTasks Database.empty c1Calls).1.filter
        (fun t => t.project_id == "p" && t.parent_id == (none : Option String))).map
        (fun t => t.order_index)
      = (List.range ((c1Calls.filter
          (fun a => a.project_id == "p" && a.parent_id == (none : Option String))).length)).map
          (fun i : Nat => (i : Int)) :=
  create_task_order_index_dense Database.empty "p" none c1Calls (by decide)

/-! ### C2: deleting a project cascades to tasks and severs todo links -/

theorem contains_true_iff (l : List String) (a : String) :
    l.contains a = true ↔ a ∈ l := by
  simp [List.contains_iff_exists_mem_beq]

theorem mem_iterate_spread (tasks : List Task) :
    ∀ (n : Nat) (d : List String) (x : String),
      x ∈ d → x ∈ (spread tasks)^[n] d := by
  intro n
  induction n with
  | zero => intro d x hx; exact hx
  | succ n ih =>
    intro d x hx
    rw [Function.iterate_succ_apply]
    exact ih _ x (show x ∈ spread tasks d from List.mem_append.mpr (Or.inl hx))

theorem iterate_of_spread_eq (tasks : List Task) (d : List String)
    (h : spread tasks d = d) : ∀ (k : Nat), (spread tasks)^[k] d = d := by
  intro k
  induction k with
  | zero => rfl
  | succ k ih => rw [Function.iterate_succ_apply, h, ih]

theorem length_filter_le_of_imp {α : Type} (p q : α → Bool) :
    ∀ (l : List α), (∀ x ∈ l, q x = true → p x = true) →
      (l.filter q).length ≤ (l.filter p).length := by
  intro l
  induction l with
  | nil => intro _; simp
  | cons y ys ih =>
    intro h
    have ih' := ih (fun x hx => h x (List.mem_cons_of_mem y hx))
    by_cases hq : q y = true
    · rw [List.filter_cons_of_pos hq,
        List.filter_cons_of_pos (h y (List.mem_cons_self y ys) hq)]
      simpa using ih'
    · rw [List.filter_cons_of_neg (by simpa using hq)]
      by_cases hp : p y = true
      · rw [List.filter_cons_of_pos hp]
        simp only [List.length_cons]
        omega
      · rw [List.filter_cons_of_neg (by simpa using hp)]
        exact ih'

theorem length_filter_lt_of_imp {α : Type} (p q : α → Bool) :
    ∀ (l : List α), (∀ x ∈ l, q x = true → p x = true) →
      ∀ x0, x0 ∈ l → p x0 = true → q x0 = false →
      (l.filter q).length < (l.filter p).length := by
  intro l
  induction l with
  | nil => intro _ x0 hx0; cases hx0
  | cons y ys ih =>
    intro h x0 hx0 hp0 hq0
    rcases List.mem_cons.mp hx0 with rfl | hmem
    · rw [List.filter_cons_of_neg (by simp [hq0]), List.filter_cons_of_pos hp0]
      simp only [List.length_cons]
      have hle := length_filter_le_of_imp p q ys
        (fun x hx => h x (List.mem_cons_of_mem _ hx))
      omega
    · have hrec := ih (fun x hx => h x (List.mem_cons_of_mem _ hx)) x0 hmem hp0 hq0
      by_cases hq : q y = true
      · rw [List.filter_cons_of_pos hq,
          List.filter_cons_of_pos (h y (List.mem_cons_self _ _) hq)]
        simp only [List.length_cons]
        omega
      · rw [List.filter_cons_of_neg (by simpa using hq)]
        by_cases hp : p y = true
        · rw [List.filter_cons_of_pos hp]
          simp only [List.length_cons]
          omega
        · rw [List.filter_cons_of_neg (by simpa using hp)]
          exact hrec

theorem spread_ne_count_lt (tasks : List Task) (d : List String)
    (h : spread tasks d ≠ d) :
    (tasks.filter (fun t => !(spread tasks d).contains t.id)).length <
      (tasks.filter (fun t => !d.contains t.id)).length := by
  have hne : tasks.filter (spreadPred d) ≠ [] := by
    intro hemp
    apply h
    unfold spread
    rw [hemp, List.map_nil, List.append_nil]
  obtain ⟨x0, hx0⟩ : ∃ x, x ∈ tasks.filter (spreadPred d) := by
    cases hfe : tasks.filter (spreadPred d) with
    | nil => exact absurd hfe hne
    | cons a as => exact ⟨a, List.mem_cons_self a as⟩
  have hx0t : x0 ∈ tasks := List.mem_of_mem_filter hx0
  have hx0p : spreadPred d x0 = true := (List.mem_filter.mp hx0).2
  have hx0live : (!d.contains x0.id) = true := by
    unfold spreadPred at hx0p
    exact ((Bool.and_eq_true _ _).mp hx0p).1
  have hx0dead : x0.id ∈ spread tasks d := by
    unfold spread
    exact List.mem_append.mpr (Or.inr (List.mem_map.mpr ⟨x0, hx0, rfl⟩))
  apply length_filter_lt_of_imp _ _ tasks ?_ x0 hx0t hx0live ?_
  · intro x _ hxq
    cases hc : d.contains x.id
    · rfl
    · exfalso
      have hxmem : x.id ∈ spread tasks d := by
        unfold spread
        exact List.mem_append.mpr (Or.inl ((contains_true_iff _ _).mp hc))
      have : (spread tasks d).contains x.id = true :=
        (contains_true_iff _ _).mpr hxmem
      rw [this] at hxq
      cases hxq
  · cases hc : (spread tasks d).contains x0.id
    · exact absurd ((contains_true_iff _ _).mpr hx0dead) (by rw [hc]; exact Bool.noConfusion)
    · rfl

theorem iterate_spread_fix (tasks : List Task) :
    ∀ (m : Nat) (d : List String),
      (tasks.filter (fun t => !d.contains t.id)).length ≤ m →
      spread tasks ((spread tasks)^[m] d) = (spread tasks)^[m] d := by
  intro m
  induction m with
  | zero =>
    intro d hd
    simp only [Function.iterate_zero_apply]
    have hfe : tasks.filter (fun t => !d.contains t.id) = [] :=
      List.eq_nil_of_length_eq_zero (Nat.le_zero.mp hd)
    have hfq : tasks.filter (spreadPred d) = [] := by
      rw [List.filter_eq_nil_iff]
      intro t ht hq
      unfold spreadPred at hq
      rw [Bool.and_eq_true] at hq
      have hmem : t ∈ tasks.filter (fun x => !d.contains x.id) :=
        List.mem_filter.mpr ⟨ht, hq.1⟩
      rw [hfe] at hmem
      cases hmem
    unfold spread
    rw [hfq, List.map_nil, List.append_nil]
  | succ m ih =>
    intro d hd
    by_cases hsp : spread tasks d = d
    · rw [iterate_of_spread_eq tasks d hsp]
      exact hsp
    · rw [Function.iterate_succ_apply]
      apply ih
      have hlt := spread_ne_count_lt tasks d hsp
      omega

theorem spread_deadIds_fix (tasks : List Task) (roots : List String) :
    spread tasks (deadIds tasks roots) = deadIds tasks roots := by
  unfold deadIds
  exact iterate_spread_fix tasks tasks.length roots (List.length_filter_le _ _)

theorem doomed_mem_deadIds (tasks : List Task) (pid : String) (t : Task)
    (hd : Doomed tasks pid t) :
    t.id ∈ deadIds tasks
      ((tasks.filter (fun x => x.project_id == pid)).map (fun x => x.id)) := by
  induction hd with
  | root t ht hp =>
    unfold deadIds
    apply mem_iterate_spread
    exact List.mem_map.mpr ⟨t, List.mem_filter.mpr ⟨ht, by simp [hp]⟩, rfl⟩
  | child t u ht hpar hdu ih =>
    by_cases hin : t.id ∈ deadIds tasks
        ((tasks.filter (fun x => x.project_id == pid)).map (fun x => x.id))
    · exact hin
    · have hstep : t.id ∈ spread tasks (deadIds tasks
          ((tasks.filter (fun x => x.project_id == pid)).map (fun x => x.id))) := by
        unfold spread
        apply List.mem_append.mpr
        right
        refine List.mem_map.mpr ⟨t, List.mem_filter.mpr ⟨ht, ?_⟩, rfl⟩
        unfold spreadPred
        rw [Bool.and_eq_true]
        constructor
        · cases hc : (deadIds tasks
              ((tasks.filter (fun x => x.project_id == pid)).map (fun x => x.id))).contains t.id
          · rfl
          · exact absurd ((contains_true_iff _ _).mp hc) hin
        · rw [hpar]
          exact (contains_true_iff _ _).mpr ih
      rw [spread_deadIds_fix] at hstep
      exact hstep

theorem spread_preserves_doomed (tasks : List Task) (pid : String)
    (d : List String)
    (hP : ∀ x ∈ d, ∃ u, u ∈ tasks ∧ u.id = x ∧ Doomed tasks pid u) :
    ∀ x ∈ spread tasks d, ∃ u, u ∈ tasks ∧ u.id = x ∧ Doomed tasks pid u := by
  intro x hx
  unfold spread at hx
  rcases List.mem_append.mp hx with h | h
  · exact hP x h
  · obtain ⟨t, htf, rfl⟩ := List.mem_map.mp h
    obtain ⟨htm, hq⟩ := List.mem_filter.mp htf
    unfold spreadPred at hq
    rw [Bool.and_eq_true] at hq
    obtain ⟨-, hq2⟩ := hq
    cases hpar : t.parent_id with
    | none => rw [hpar] at hq2; cases hq2
    | some p =>
      rw [hpar] at hq2
      have hpmem : p ∈ d := (contains_true_iff _ _).mp hq2
      obtain ⟨u, hu1, hu2, hu3⟩ := hP p hpmem
      exact ⟨t, htm, rfl, Doomed.child t u htm (by rw [hpar, hu2]) hu3⟩

theorem iterate_preserves_doomed (tasks : List Task) (pid : String) :
    ∀ (n : Nat) (d : List String),
      (∀ x ∈ d, ∃ u, u ∈ tasks ∧ u.id = x ∧ Doomed tasks pid u) →
      ∀ x ∈ (spread tasks)^[n] d,
        ∃ u, u ∈ tasks ∧ u.id = x ∧ Doomed tasks pid u := by
  intro n
  induction n with
  | zero => intro d hP; exact hP
  | succ n ih =>
    intro d hP
    rw [Function.iterate_succ_apply]
    exact ih _ (spread_preserves_doomed tasks pid d hP)

theorem deadIds_doomed (tasks : List Task) (pid : String) :
    ∀ x ∈ deadIds tasks
        ((tasks.filter (fun t => t.project_id == pid)).map (fun t => t.id)),
      ∃ u, u ∈ tasks ∧ u.id = x ∧ Doomed tasks pid u := by
  unfold deadIds
  apply iterate_preserves_doomed
  intro x hx
  obtain ⟨t, htf, rfl⟩ := List.mem_map.mp hx
  obtain ⟨htm, hp⟩ := List.mem_filter.mp htf
  exact ⟨t, htm, rfl, Doomed.root t htm (by simpa using hp)⟩

/-- C2: deleting a project removes every task it owns and, recursively
through nested parent links, every descendant task (and only those, given
the primary-key uniqueness of task ids), while every DailyTodo row survives
with its identifier, title, memo and the rest of its fields unchanged, its
task reference set absent whenever it pointed at a removed task. -/
theorem delete_project_cascades (s : Database) (pid : String)
    (hnd : (s.tasks.map (fun t => t.id)).Nodup) :
    (∀ t, Doomed s.tasks pid t →
        t.id ∉ ((delete_project s pid).tasks.map (fun x => x.id))) ∧
    (∀ t ∈ s.tasks, ¬ Doomed s.tasks pid t → t ∈ (delete_project s pid).tasks) ∧
    (∀ d ∈ s.todos, ∃ d2,
        d2 ∈ (delete_project s pid).todos ∧
        d2.id = d.id ∧ d2.title = d.title ∧ d2.memo = d.memo ∧
        d2.date = d.date ∧ d2.completed = d.completed ∧
        d2.created_at = d.created_at ∧
        (∀ u, u ∈ s.tasks → Doomed s.tasks pid u → d.task_id = some u.id →
          d2.task_id = none)) ∧
    (delete_project s pid).todos.length = s.todos.length := by
  refine ⟨?_, ?_, ?_, ?_⟩
  · intro t hdoom hmem
    simp only [delete_project] at hmem
    obtain ⟨x, hxmem, hxid⟩ := List.mem_map.mp hmem
    obtain ⟨hxt, hxf⟩ := List.mem_filter.mp hxmem
    have hdead := doomed_mem_deadIds s.tasks pid t hdoom
    have hxdead : x.id ∈ deadIds s.tasks
        ((s.tasks.filter (fun x => x.project_id == pid)).map (fun x => x.id)) := by
      rw [hxid]
      exact hdead
    have hc : (deadIds s.tasks
        ((s.tasks.filter (fun t => t.project_id == pid)).map (fun t => t.id))).contains x.id
        = true := (contains_true_iff _ _).mpr hxdead
    rw [hc] at hxf
    cases hxf
  · intro t htm hnotdoom
    show t ∈ s.tasks.filter _
    apply List.mem_filter.mpr
    refine ⟨htm, ?_⟩
    cases hc : (deadIds s.tasks
        ((s.tasks.filter (fun t => t.project_id == pid)).map (fun t => t.id))).contains t.id
    · rfl
    · exfalso
      have hmem := (contains_true_iff _ _).mp hc
      obtain ⟨u, hu1, hu2, hu3⟩ := deadIds_doomed s.tasks pid t.id hmem
      have huev : u = t := List.inj_on_of_nodup_map hnd hu1 htm hu2
      exact hnotdoom (huev ▸ hu3)
  · intro d hdm
    simp only [delete_project]
    rcases hdt : d.task_id with _ | tid
    · exact ⟨d, List.mem_map.mpr ⟨d, hdm, by simp [hdt]⟩,
        rfl, rfl, rfl, rfl, rfl, rfl, fun u _ _ _ => hdt⟩
    · by_cases hct : tid ∈ deadIds s.tasks
          ((s.tasks.filter (fun t => t.project_id == pid)).map (fun t => t.id))
      · refine ⟨{ d with task_id := none },
          List.mem_map.mpr ⟨d, hdm, by simp [hdt, hct]⟩,
          rfl, rfl, rfl, rfl, rfl, rfl, fun _ _ _ _ => rfl⟩
      · refine ⟨d, List.mem_map.mpr ⟨d, hdm, by simp [hdt, hct]⟩,
          rfl, rfl, rfl, rfl, rfl, rfl, ?_⟩

        intro u _ hdoomu heq
        exfalso
        apply hct
        have htid : tid = u.id := Option.some.inj (hdt ▸ heq)
        rw [htid]
        exact doomed_mem_deadIds s.tasks pid u hdoomu
  · simp [delete_project]

/-- Witness for C2 on the concrete store: the nested task `c2t2` is removed
when project "p1" is deleted, the unrelated task `c2t3` survives, the todo
that pointed at `c2t2` survives with title and memo intact but its task
reference severed, and no todo row is lost. -/
theorem delete_project_cascades_witness :
    c2t2.id ∉ ((delete_project c2Store "p1").tasks.map (fun x => x.id)) ∧
    c2t3 ∈ (delete_project c2Store "p1").tasks ∧
    (∃ d2, d2 ∈ (delete_project c2Store "p1").todos ∧
      d2.id = c2d1.id ∧ d2.title = c2d1.title ∧ d2.memo = c2d1.memo ∧
      d2.task_id = none) ∧
    (delete_project c2Store "p1").todos.length = c2Store.todos.length := by
  have h := delete_project_cascades c2Store "p1" (by decide)
  have hdoom2 : Doomed c2Store.tasks "p1" c2t2 :=
    Doomed.child c2t2 c2t1 (by decide) rfl
      (Doomed.root c2t1 (by decide) rfl)
  refine ⟨h.1 c2t2 hdoom2, ?_, ?_, h.2.2.2⟩
  · apply h.2.1 c2t3 (by decide)
    intro hd
    cases hd with
    | root _ _ hp => exact absurd hp (by decide)
    | child _ u _ hpar _ => exact Option.noConfusion hpar
  · obtain ⟨d2, hmem, hid, htitle, hmemo, -, -, -, hsev⟩ :=
      h.2.2.1 c2d1 (by decide)
    exact ⟨d2, hmem, hid, htitle, hmemo, hsev c2t2 (by decide) hdoom2 rfl⟩

end TodoWbs
